import Mathlib

/-!
Verification of the PixEngine thumbnail pipeline (src/src-tauri/src) against its
natural-language specification.  The development shallowly embeds the relevant
Rust code: pure helpers become Lean functions on `Nat`/`List Nat` (bytes are
naturals below 256), and the effectful thumbnail producers become explicit
state-passing functions over an environment record (`FsEnv`) that fixes the
outcome of every filesystem / decoder interaction, plus an explicit cache map.
External crates (blake3, jpeg-decoder, base64, webp) are embedded from their
documented behaviour; blake3 and base64 are implemented concretely so that all
definitions evaluate.
-/

/-! ### Byte and hex utilities -/

/-- Big-endian value of a byte string: `beNat [b0, b1, ...]` folds bytes most
significant first. -/
def beNat (bs : List Nat) : Nat :=
  bs.foldl (fun acc b => acc * 256 + b) 0

/-- Lowercase hexadecimal digit table, `0..15 → '0'..'f'`. -/
def hexDigit (n : Nat) : Char :=
  (String.toList "0123456789abcdef").getD n '0'

/-- Two lowercase hex digits of one byte, high nibble first.  This is the
per-byte rendering used by blake3's `Hash::to_hex`. -/
def byteHex (b : Nat) : List Char :=
  [hexDigit (b / 16), hexDigit (b % 16)]

/-- Byte-string rendering used by the Rust code (`hash.to_hex()`): each byte in
order, two lowercase digits per byte. -/
def bytesToHexLower (bs : List Nat) : String :=
  String.mk (bs.flatMap byteHex)

/-- Fixed-width lowercase hexadecimal rendering of a natural number:
`hexFixed k n` is the low `k` nibbles of `n`, most significant first. -/
def hexFixed : Nat → Nat → List Char
  | 0, _ => []
  | k + 1, n => hexFixed k (n / 16) ++ [hexDigit (n % 16)]

/-- UTF-8 bytes of a string, as naturals below 256. -/
def utf8Bytes (s : String) : List Nat :=
  s.toUTF8.toList.map (fun b => b.toNat)

/-! ### BLAKE3 (external `blake3` crate, embedded from the official function
definition; unkeyed hash mode, 32-byte output).  Words are naturals kept below
`2 ^ 32` by explicit reduction. -/

/-- Modular 32-bit addition. -/
def add32 (a b : Nat) : Nat := (a + b) % 4294967296

/-- Bitwise xor (already closed on 32-bit values). -/
def xor32 (a b : Nat) : Nat := Nat.xor a b

/-- Right rotation of a 32-bit word by `n` places. -/
def rotr32 (x n : Nat) : Nat :=
  (x / 2 ^ n + x % 2 ^ n * 2 ^ (32 - n)) % 4294967296

/-- BLAKE3 initial values (the SHA-256 IV words). -/
def blakeIV : List Nat :=
  [0x6A09E667, 0xBB67AE85, 0x3C6EF372, 0xA54FF53A,
   0x510E527F, 0x9B05688C, 0x1F83D9AB, 0x5BE0CD19]

/-- Domain-separation flag bits. -/
def CHUNK_START : Nat := 1
def CHUNK_END : Nat := 2
def PARENT : Nat := 4
def ROOT : Nat := 8

/-- The quarter-round mixing function `g`. -/
def blakeG (a b c d mx my : Nat) : Nat × Nat × Nat × Nat :=
  let a := add32 (add32 a b) mx
  let d := rotr32 (xor32 d a) 16
  let c := add32 c d
  let b := rotr32 (xor32 b c) 12
  let a := add32 (add32 a b) my
  let d := rotr32 (xor32 d a) 8
  let c := add32 c d
  let b := rotr32 (xor32 b c) 7
  (a, b, c, d)

/-- Apply `g` to state positions `ia ib ic id` with message words `im1 im2`. -/
def applyG (s m : List Nat) (ia ib ic id im1 im2 : Nat) : List Nat :=
  match blakeG (s.getD ia 0) (s.getD ib 0) (s.getD ic 0) (s.getD id 0)
      (m.getD im1 0) (m.getD im2 0) with
  | (a, b, c, d) => (((s.set ia a).set ib b).set ic c).set id d

/-- One BLAKE3 round: four column mixes then four diagonal mixes. -/
def blakeRound (s m : List Nat) : List Nat :=
  let s := applyG s m 0 4 8 12 0 1
  let s := applyG s m 1 5 9 13 2 3
  let s := applyG s m 2 6 10 14 4 5
  let s := applyG s m 3 7 11 15 6 7
  let s := applyG s m 0 5 10 15 8 9
  let s := applyG s m 1 6 11 12 10 11
  let s := applyG s m 2 7 8 13 12 13
  applyG s m 3 4 9 14 14 15

/-- Message word permutation applied between rounds. -/
def permuteM (m : List Nat) : List Nat :=
  [m.getD 2 0, m.getD 6 0, m.getD 3 0, m.getD 10 0,
   m.getD 7 0, m.getD 0 0, m.getD 4 0, m.getD 13 0,
   m.getD 1 0, m.getD 11 0, m.getD 12 0, m.getD 5 0,
   m.getD 9 0, m.getD 14 0, m.getD 15 0, m.getD 8 0]

/-- Run `n` rounds, permuting the message words between rounds. -/
def blakeRounds : Nat → List Nat → List Nat → List Nat
  | 0, s, _ => s
  | n + 1, s, m => blakeRounds n (blakeRound s m) (permuteM m)

/-- The BLAKE3 compression function, returning all 16 output words. -/
def blakeCompress (cv block : List Nat) (counter blockLen flags : Nat) : List Nat :=
  let st0 := cv.take 8 ++ blakeIV.take 4 ++
    [counter % 4294967296, counter / 4294967296 % 4294967296, blockLen, flags]
  let st := blakeRounds 7 st0 block
  (List.range 8).map (fun i => xor32 (st.getD i 0) (st.getD (i + 8) 0)) ++
    (List.range 8).map (fun i => xor32 (st.getD (i + 8) 0) (cv.getD i 0))

/-- First eight output words of the compression function (a chaining value). -/
def blakeCompressCV (cv block : List Nat) (counter blockLen flags : Nat) : List Nat :=
  (blakeCompress cv block counter blockLen flags).take 8

/-- Split a byte list into pieces of `sz` bytes (the last may be short). -/
def chunkList (sz : Nat) : Nat → List Nat → List (List Nat)
  | 0, _ => []
  | _, [] => []
  | fuel + 1, bs => bs.take sz :: chunkList sz fuel (bs.drop sz)

/-- Little-endian 32-bit words of one 64-byte block (zero padded). -/
def blockWords (block : List Nat) : List Nat :=
  (List.range 16).map (fun i =>
    block.getD (4 * i) 0 + block.getD (4 * i + 1) 0 * 256 +
      block.getD (4 * i + 2) 0 * 65536 + block.getD (4 * i + 3) 0 * 16777216)

/-- Blocks of a chunk: 64-byte pieces, or a single empty block for an empty
chunk. -/
def chunkBlocks (chunk : List Nat) : List (List Nat) :=
  match chunkList 64 (chunk.length + 1) chunk with
  | [] => [[]]
  | bs => bs

/-- Fold the blocks of a chunk into a chaining value.  `first` marks the first
block of the chunk (`CHUNK_START`); `extraLast` is added into the flags of the
final block (`ROOT` in single-chunk hashing). -/
def chunkFold (counter extraLast : Nat) : Bool → List Nat → List (List Nat) → List Nat
  | _, cv, [] => cv
  | first, cv, [b] =>
      blakeCompressCV cv (blockWords b) counter b.length
        ((if first then CHUNK_START else 0) + CHUNK_END + extraLast)
  | first, cv, b :: rest =>
      chunkFold counter extraLast false
        (blakeCompressCV cv (blockWords b) counter b.length
          (if first then CHUNK_START else 0)) rest

/-- Chaining value of chunk number `counter`. -/
def chunkCV (counter : Nat) (chunk : List Nat) : List Nat :=
  chunkFold counter 0 true blakeIV (chunkBlocks chunk)

/-- Largest power of two strictly below `n` (for `n ≥ 2`). -/
def largestPow2Lt (n : Nat) : Nat :=
  go n 1
where
  go : Nat → Nat → Nat
    | 0, p => p
    | fuel + 1, p => if 2 * p < n then go fuel (2 * p) else p

/-- Chaining value of a subtree of chunk chaining values (never the root). -/
def treeCV : Nat → List (List Nat) → List Nat
  | 0, _ => blakeIV
  | _ + 1, [] => blakeIV
  | _ + 1, [cv] => cv
  | fuel + 1, cvs =>
      let k := largestPow2Lt cvs.length
      blakeCompressCV blakeIV
        (treeCV fuel (cvs.take k) ++ treeCV fuel (cvs.drop k)) 0 64 PARENT

/-- BLAKE3 hash of a byte string: the 32-byte digest, bytes below 256. -/
def blake3Hash (input : List Nat) : List Nat :=
  let chunks := match chunkList 1024 (input.length + 1) input with
    | [] => [[]]
    | cs => cs
  let rootWords :=
    match chunks with
    | [c] => chunkFold 0 ROOT true blakeIV (chunkBlocks c)
    | cs =>
        let cvs := cs.enum.map (fun p : Nat × List Nat => chunkCV p.1 p.2)
        let k := largestPow2Lt cvs.length
        blakeCompressCV blakeIV
          (treeCV cvs.length (cvs.take k) ++ treeCV cvs.length (cvs.drop k))
          0 64 (PARENT + ROOT)
  (List.range 8).flatMap (fun i =>
    let w := rootWords.getD i 0
    [w % 256, w / 256 % 256, w / 65536 % 256, w / 16777216 % 256])

/-! ### Cache key (src/src-tauri/src/thumbnail.rs, `generate_cache_key`) -/

/-- Embeds `generate_cache_key` (thumbnail.rs:74-78): hash the UTF-8 bytes of
`format!("\x7b\x7d:\x7b\x7d", file_path, mtime)` with BLAKE3 and render the
digest with `to_hex` (per-byte lowercase hex). -/
def generate_cache_key (file_path : String) (mtime : Nat) : String :=
  bytesToHexLower (blake3Hash (utf8Bytes (file_path ++ ":" ++ toString mtime)))

/-- Modelled from the spec: "A 256-bit BLAKE3 digest of the concatenation
`P + ":" + mtime_seconds`, rendered in lowercase hex."  The digest is read as
a 256-bit number (bytes in order, most significant first) and rendered as 64
lowercase hex nibbles. -/
def cacheKeySpec (P : String) (mtimeSeconds : Nat) : String :=
  String.mk (hexFixed 64 (beNat (blake3Hash (utf8Bytes (P ++ ":" ++ toString mtimeSeconds)))))

/-! ### File-name extension dispatch (thumbnail.rs:577-604, folder_watcher.rs:22-42)

Models `std::path::Path::extension`: the final path component is taken after
the last separator; the extension is the part after the last dot, and is absent
when there is no dot or when the only dot leads the file name.  Lowercasing is
ASCII (`Char.toLower`), which agrees with Rust `str::to_lowercase` on ASCII
extensions. -/

/-- Final component of a path (text after the last `/` or `\`). -/
def fileNameOf (p : String) : List Char :=
  (p.toList.foldl (fun acc c => if c = '/' ∨ c = '\\' then [] else acc ++ [c]) [])

/-- Extension of a path, per `Path::extension`. -/
def extensionOf (p : String) : Option String :=
  let name := fileNameOf p
  let rev := name.reverse
  let afterDot := rev.takeWhile (fun c => c ≠ '.')
  if afterDot.length = name.length then
    none
  else if afterDot.length + 1 = name.length then
    none
  else
    some (String.mk (afterDot.reverse))

/-- ASCII lowercasing of a string, as a list of characters. -/
def lowerStr (s : String) : String :=
  String.mk (s.toList.map Char.toLower)

/-- Embeds `RAW_EXTENSIONS` (thumbnail.rs:416-425). -/
def RAW_EXTENSIONS : List String :=
  ["nef", "nrw", "cr2", "crw", "arw", "srf", "sr2", "dng", "raf", "orf", "rw2", "pef"]

/-- Embeds `is_jpeg_file` (thumbnail.rs:577-584). -/
def is_jpeg_file (file_path : String) : Bool :=
  match extensionOf file_path with
  | some ext => lowerStr ext = "jpg" ∨ lowerStr ext = "jpeg"
  | none => false

/-- Embeds `is_svg_file` (thumbnail.rs:587-594). -/
def is_svg_file (file_path : String) : Bool :=
  match extensionOf file_path with
  | some ext => lowerStr ext = "svg"
  | none => false

/-- Embeds `is_raw_file` (thumbnail.rs:597-604). -/
def is_raw_file (file_path : String) : Bool :=
  match extensionOf file_path with
  | some ext => RAW_EXTENSIONS.contains (lowerStr ext)
  | none => false

/-! ### Folder watcher (folder_watcher.rs) -/

/-- Embeds `IMAGE_EXTENSIONS` (folder_watcher.rs:22-33). -/
def IMAGE_EXTENSIONS : List String :=
  ["jpg", "jpeg", "png", "gif", "bmp", "webp", "tiff", "tif", "exr", "avif", "ico", "svg"]

/-- Embeds `is_image_file` (folder_watcher.rs:35-42). -/
def is_image_file (path : String) : Bool :=
  match extensionOf path with
  | some ext => IMAGE_EXTENSIONS.contains (lowerStr ext)
  | none => false

/-- Embeds `FolderChangeEvent` (folder_watcher.rs:15-19). -/
inductive FolderChangeEvent where
  | fileAdded (path : String)
  | fileRemoved (path : String)
  | fileModified (path : String)
deriving DecidableEq, Repr

/-- Kinds of debounced `notify` events reaching the handler closure;
`other` stands for every `notify::EventKind` besides Create/Remove/Modify. -/
inductive WatchEventKind where
  | create
  | remove
  | modify
  | other
deriving DecidableEq, Repr

/-- Embeds the per-path body of the watcher callback (folder_watcher.rs:75-99):
non-image paths are skipped, and Create/Remove/Modify kinds map to the three
`folder-change` payloads. -/
def watchHandlePath (kind : WatchEventKind) (path : String) : Option FolderChangeEvent :=
  if ¬ is_image_file path then
    none
  else
    match kind with
    | .create => some (.fileAdded path)
    | .remove => some (.fileRemoved path)
    | .modify => some (.fileModified path)
    | .other => none

/-- Embeds one debounced event (folder_watcher.rs:74-100): the callback walks
`event.paths` and emits one `folder-change` per qualifying path. -/
def watchHandleEvent (kind : WatchEventKind) (paths : List String) : List FolderChangeEvent :=
  paths.filterMap (watchHandlePath kind)

/-! ### JPEG DCT scaling (external `jpeg-decoder` crate)

`generate_dct_thumbnail` (thumbnail.rs:330-351) requests
`decoder.scale(max_size, max_size)` and reports the decoder's output size.
The crate scales by the smallest factor in 1/1, 1/2, 1/4, 1/8 whose output is
larger than or equal to the requested size in at least one axis; a factor of
s/8 turns a side of `len` pixels into `(len * s - 1) / 8 + 1` pixels
(`choose_idct_size` in the crate).  Embedded here for sides `len ≥ 1`. -/

/-- Output length of one side under scale factor `s/8`. -/
def jpegScaledLen (len s : Nat) : Nat := (len * s - 1) / 8 + 1

/-- Scale factor (in eighths) chosen by `jpeg_decoder` for a `w × h` image and
a requested `reqW × reqH` output. -/
def jpegChooseScale (w h reqW reqH : Nat) : Nat :=
  if jpegScaledLen w 1 ≥ reqW ∨ jpegScaledLen h 1 ≥ reqH then 1
  else if jpegScaledLen w 2 ≥ reqW ∨ jpegScaledLen h 2 ≥ reqH then 2
  else if jpegScaledLen w 4 ≥ reqW ∨ jpegScaledLen h 4 ≥ reqH then 4
  else 8

/-- Dimensions reported by the decoder after a scaled decode. -/
def jpegScaledDims (w h reqW reqH : Nat) : Nat × Nat :=
  let s := jpegChooseScale w h reqW reqH
  (jpegScaledLen w s, jpegScaledLen h s)

/-! ### WebP dimension extraction (thumbnail.rs:793-837, `extract_webp_dimensions`) -/

/-- Embeds `extract_webp_dimensions`: parses width and height out of the RIFF
container (lossy `VP8 `, lossless `VP8L`, extended `VP8X`).  Masking with
`0x3FFF` and `0xFFFFFF` is written as `% 2 ^ 14` and `% 2 ^ 24`. -/
def extract_webp_dimensions (d : List Nat) : Option (Nat × Nat) :=
  if d.length < 30 then none
  else if ¬ ((d.take 4 = [82, 73, 70, 70]) ∧ ((d.drop 8).take 4 = [87, 69, 66, 80])) then none
  else
    let chunk := (d.drop 12).take 4
    if chunk = [86, 80, 56, 32] then
      some ((d.getD 26 0 + d.getD 27 0 * 256) % 2 ^ 14,
            (d.getD 28 0 + d.getD 29 0 * 256) % 2 ^ 14)
    else if chunk = [86, 80, 56, 76] then
      if d.length < 25 then none
      else
        let bits := d.getD 21 0 + d.getD 22 0 * 256 + d.getD 23 0 * 65536 +
          d.getD 24 0 * 16777216
        some (bits % 2 ^ 14 + 1, bits / 2 ^ 14 % 2 ^ 14 + 1)
    else if chunk = [86, 80, 56, 88] then
      some ((d.getD 24 0 + d.getD 25 0 * 256 + d.getD 26 0 * 65536) % 2 ^ 24 + 1,
            (d.getD 27 0 + d.getD 28 0 * 256 + d.getD 29 0 * 65536) % 2 ^ 24 + 1)
    else none

/-! ### Base64 (external `base64` crate, STANDARD engine, used by
`encode_to_base64`, thumbnail.rs:562-564) -/

/-- Standard base64 alphabet lookup. -/
def b64Char (n : Nat) : Char :=
  (String.toList "ABCDEFGHIJKLMNOPQRSTUVWXYZabcdefghijklmnopqrstuvwxyz0123456789+/").getD n 'A'

/-- Byte triples to character quadruples, with `=` padding. -/
def b64Groups : List Nat → List Char
  | [] => []
  | [a] => [b64Char (a / 4), b64Char (a % 4 * 16), '=', '=']
  | [a, b] => [b64Char (a / 4), b64Char (a % 4 * 16 + b / 16), b64Char (b % 16 * 4), '=']
  | a :: b :: c :: rest =>
      b64Char (a / 4) :: b64Char (a % 4 * 16 + b / 16) ::
        b64Char (b % 16 * 4 + c / 64) :: b64Char (c % 64) :: b64Groups rest

/-- Embeds `encode_to_base64` (thumbnail.rs:562-564). -/
def encode_to_base64 (data : List Nat) : String :=
  String.mk (b64Groups data)

/-! ### Thumbnail data model (thumbnail.rs:15-71) -/

/-- Embeds `ThumbnailSource` (thumbnail.rs:27-35); serde names are
`cache` / `exif` / `dct`. -/
inductive ThumbnailSource where
  | cache
  | exifEmbedded
  | dctScaling
deriving DecidableEq, Repr

/-- Embeds `ExifMetadata` (thumbnail.rs:38-52).  The `f64` fields are carried
as `Float`; no claim computes with them. -/
structure ExifMetadata where
  orientation : Nat
  datetime : Option String
  datetime_original : Option String
  camera_make : Option String
  camera_model : Option String
  lens_model : Option String
  focal_length : Option Float
  aperture : Option Float
  shutter_speed : Option String
  iso : Option Nat
  width : Option Nat
  height : Option Nat

/-- Embeds `ThumbnailResult` (thumbnail.rs:16-24). -/
structure ThumbnailResult where
  path : String
  thumbnail_base64 : String
  width : Nat
  height : Nat
  source : ThumbnailSource
  exif_metadata : Option ExifMetadata

/-! ### Environment for the thumbnail producers

Fixes, per path, the outcome of every interaction the producers have with the
filesystem and the external decoders ("the underlying files unchanged" is one
fixed `FsEnv`).  The on-disk cache directory is explicit state
(`Cache := key → Option bytes`); directory creation and cache reads are taken
to succeed, cache writes succeed per `writeOk`. -/
structure FsEnv where
  /-- Outcome of `get_file_mtime` (thumbnail.rs:81-93); `none` is an error. -/
  mtime : String → Option Nat
  /-- Outcome of `extract_exif_metadata(..).ok()` (thumbnail.rs:134-230). -/
  exifMeta : String → Option ExifMetadata
  /-- Outcome of `extract_exif_thumbnail` (thumbnail.rs:233-327): embedded
  JPEG bytes on success. -/
  exifThumb : String → Option (List Nat)
  /-- Dimensions `image::load_from_memory` reports for a byte string, `none`
  when decoding fails. -/
  decodeMem : List Nat → Option (Nat × Nat)
  /-- Native dimensions of the file for the JPEG decoder; `none` when opening
  or decoding fails (`generate_dct_thumbnail`, thumbnail.rs:330-351). -/
  jpegDims : String → Option (Nat × Nat)
  /-- RGB bytes produced by the scaled JPEG decode. -/
  jpegPixels : String → List Nat
  /-- Outcome of `generate_svg_thumbnail` (thumbnail.rs:373-413); its `f32`
  size arithmetic is not re-modelled, the environment fixes the result. -/
  svgThumb : String → Option (List Nat × Nat × Nat)
  /-- Outcome of `generate_raw_thumbnail` (thumbnail.rs:483-511). -/
  rawThumb : String → Option (List Nat × Nat × Nat)
  /-- Outcome of `generate_generic_thumbnail` (thumbnail.rs:354-370). -/
  genericThumb : String → Option (List Nat × Nat × Nat)
  /-- Bytes produced by `encode_thumbnail_to_webp` (thumbnail.rs:567-574) for
  given RGB bytes and dimensions (infallible in the source). -/
  webpEncode : List Nat → Nat → Nat → List Nat
  /-- Whether `fs::write` of the cache file named by a key succeeds. -/
  writeOk : String → Bool

/-- On-disk thumbnail cache: contents of `<cache_dir>/<key>.webp` per key. -/
def Cache := String → Option (List Nat)

/-- Contents after writing one cache file. -/
def cacheInsert (k : String) (v : List Nat) (c : Cache) : Cache :=
  fun k' => if k' = k then some v else c k'

/-- Embeds `generate_dct_thumbnail` (thumbnail.rs:330-351). -/
def generate_dct_thumbnail (env : FsEnv) (file_path : String) (max_size : Nat) :
    Except String (List Nat × Nat × Nat) :=
  match env.jpegDims file_path with
  | none => .error "Failed to decode JPEG"
  | some (w, h) =>
      let d := jpegScaledDims w h max_size max_size
      .ok (env.jpegPixels file_path, d.1, d.2)

/-- Embeds the format dispatch of `generate_thumbnail` step 3
(thumbnail.rs:655-667): JPEG → DCT, SVG → vector raster, RAW → embedded
preview, otherwise the generic decoder. -/
def decodeDispatch (env : FsEnv) (file_path : String) :
    Except String (List Nat × Nat × Nat) :=
  if is_jpeg_file file_path then
    generate_dct_thumbnail env file_path 320
  else if is_svg_file file_path then
    match env.svgThumb file_path with
    | some r => .ok r
    | none => .error "Failed to parse SVG"
  else if is_raw_file file_path then
    match env.rawThumb file_path with
    | some r => .ok r
    | none => .error "Failed to decode RAW thumbnail JPEG"
  else
    match env.genericThumb file_path with
    | some r => .ok r
    | none => .error "Failed to open image"

/-- Embeds `generate_thumbnail` (`produce_fast`, thumbnail.rs:607-686) as a
cache-state transformer.  Steps follow the source: EXIF metadata first
(failures non-fatal), EXIF-embedded shortcut for JPEGs (a decode failure of
the embedded bytes is propagated with `?`), then the HQ cache, then the
format dispatch, WebP encode, cache write (propagated with `?`). -/
def generate_thumbnail (env : FsEnv) (cache : Cache) (file_path : String) :
    Except String ThumbnailResult × Cache :=
  let exif_metadata := env.exifMeta file_path
  match (if is_jpeg_file file_path then env.exifThumb file_path else none) with
  | some exif_thumb =>
      (match env.decodeMem exif_thumb with
       | none => (.error "Failed to decode EXIF thumbnail", cache)
       | some (w, h) =>
           (.ok { path := file_path, thumbnail_base64 := encode_to_base64 exif_thumb,
                  width := w, height := h, source := .exifEmbedded,
                  exif_metadata := exif_metadata }, cache))
  | none =>
      match env.mtime file_path with
      | none => (.error "Failed to get file metadata", cache)
      | some mtime =>
          let cache_key := generate_cache_key file_path mtime
          match cache cache_key with
          | some webp_data =>
              let d := (extract_webp_dimensions webp_data).getD (320, 320)
              (.ok { path := file_path, thumbnail_base64 := encode_to_base64 webp_data,
                     width := d.1, height := d.2, source := .cache,
                     exif_metadata := exif_metadata }, cache)
          | none =>
              match decodeDispatch env file_path with
              | .error e => (.error e, cache)
              | .ok (rgb_data, w, h) =>
                  let webp_data := env.webpEncode rgb_data w h
                  if env.writeOk cache_key then
                    (.ok { path := file_path, thumbnail_base64 := encode_to_base64 webp_data,
                           width := w, height := h, source := .dctScaling,
                           exif_metadata := exif_metadata },
                     cacheInsert cache_key webp_data cache)
                  else
                    (.error "Failed to write cache", cache)

/-- Embeds `generate_hq_thumbnail` (`produce_hq`, thumbnail.rs:741-790):
cache lookup first, otherwise an unconditional JPEG DCT decode at cap 320,
WebP encode, cache write (propagated with `?`). -/
def generate_hq_thumbnail (env : FsEnv) (cache : Cache) (file_path : String) :
    Except String ThumbnailResult × Cache :=
  match env.mtime file_path with
  | none => (.error "Failed to get file metadata", cache)
  | some mtime =>
      let cache_key := generate_cache_key file_path mtime
      match cache cache_key with
      | some webp_data =>
          let d := (extract_webp_dimensions webp_data).getD (320, 320)
          (.ok { path := file_path, thumbnail_base64 := encode_to_base64 webp_data,
                 width := d.1, height := d.2, source := .cache,
                 exif_metadata := env.exifMeta file_path }, cache)
      | none =>
          match generate_dct_thumbnail env file_path 320 with
          | .error e => (.error e, cache)
          | .ok (rgb_data, w, h) =>
              let webp_data := env.webpEncode rgb_data w h
              if env.writeOk cache_key then
                (.ok { path := file_path, thumbnail_base64 := encode_to_base64 webp_data,
                       width := w, height := h, source := .dctScaling,
                       exif_metadata := env.exifMeta file_path },
                 cacheInsert cache_key webp_data cache)
              else
                (.error "Failed to write HQ thumbnail cache", cache)

/-! ### Fast queue (thumbnail_queue.rs:22-111) -/

/-- Two's-complement wrap of an integer into the `i32` range
`[-2 ^ 31, 2 ^ 31)`: models Rust's `as i32` cast (which always wraps) and the
wrapping overflow behaviour of release-profile `i32` arithmetic. -/
def wrap32 (n : Int) : Int := (n + 2147483648) % 4294967296 - 2147483648

/-- Embeds `ThumbnailRequest` (thumbnail_queue.rs:24-28).  `priority : i32` is
an integer kept in the `i32` range by `wrap32` wherever the source computes
one. -/
structure ThumbnailRequest where
  path : String
  priority : Int
  index : Nat
deriving DecidableEq, Repr

/-- Ordering used by `requests.sort_by_key(|r| r.priority)`. -/
def reqLE (a b : ThumbnailRequest) : Prop := a.priority ≤ b.priority

instance : DecidableRel reqLE := fun a b => inferInstanceAs (Decidable (a.priority ≤ b.priority))

instance : IsTotal ThumbnailRequest reqLE := ⟨fun a b => Int.le_total a.priority b.priority⟩

instance : IsTrans ThumbnailRequest reqLE := ⟨fun _ _ _ h h' => le_trans h h'⟩

/-- Priority reassignment of one request (thumbnail_queue.rs:96-104): inside
the viewport `-(request.index as i32 + 1000)`, outside the viewport
`request.index as i32`.  The `as i32` cast wraps for `index ≥ 2 ^ 31`; the
`+ 1000` and the negation wrap in release builds (in debug builds those two
panic on overflow, but at the indices where the cast itself wraps, e.g.
`2 ^ 31`, neither overflows, so the wrapped values below are what every build
computes there). -/
def reassignPriority (visible_indices : List Nat) (r : ThumbnailRequest) : ThumbnailRequest :=
  if visible_indices.contains r.index then
    { r with priority := wrap32 (-(wrap32 (wrap32 (r.index : Int) + 1000))) }
  else
    { r with priority := wrap32 (r.index : Int) }

/-- Embeds `update_priorities` (thumbnail_queue.rs:90-111): drain, reassign
priorities, stable-sort ascending by priority, refill.  Rust's
`sort_by_key` is stable; the stable sort is modelled by insertion sort. -/
def update_priorities (queue : List ThumbnailRequest) (visible_indices : List Nat) :
    List ThumbnailRequest :=
  List.insertionSort reqLE (queue.map (reassignPriority visible_indices))

/-- Embeds `initialize` (thumbnail_queue.rs:67-87): one request per path with
`priority = index as i32`. -/
def initializeQueue (image_paths : List String) : List ThumbnailRequest :=
  image_paths.enum.map (fun p : Nat × String =>
    { path := p.2, priority := wrap32 (p.1 : Int), index := p.1 })

/-! ### HQ worker termination events (thumbnail_queue.rs:312-398)

One `start_hq_thumbnail_worker` pass reads the process-wide cancellation flag
at a sequence of instants: once per loop iteration before spawning
(line 326), and once after all tasks are awaited (line 387).  `cancel_hq_
thumbnail_generation` (line 397) only ever stores `true`, and the only store
of `false` happens at the start of the next pass, so within one pass the
sampled values are monotone: once `true`, always `true`.  `checks` lists the
values the per-iteration reads would see, `finalFlag` the value of the final
read; the emissions of the pass are exactly those of lines 328, 388 and
390. -/

/-- Monotonicity of a sampled boolean trace: no `true` is followed by
`false`. -/
def monoTrace : List Bool → Bool
  | [] => true
  | [_] => true
  | a :: b :: t => (!a || b) && monoTrace (b :: t)

/-- Emissions of one HQ worker pass: the loop emits `thumbnail-hq-cancelled`
and breaks at the first `true` per-iteration read (lines 326-330); after the
joins, the final read picks `thumbnail-hq-cancelled` or
`thumbnail-hq-all-completed` (lines 387-391). -/
def hqWorkerEmissions (checks : List Bool) (finalFlag : Bool) : List String :=
  (if checks.any (fun b => b) then ["thumbnail-hq-cancelled"] else []) ++
    (if finalFlag then ["thumbnail-hq-cancelled"] else ["thumbnail-hq-all-completed"])

/-! ### `load_existing_hq_thumbnails` (thumbnail_queue.rs:258-309)

The pass calls `generate_hq_thumbnail` for every path under a semaphore of
width 3 and counts successful results in an atomic counter; the final counter
value is the number of `Ok` results.  The model serialises the pass in list
order; with a fixed `FsEnv`, each path's outcome depends on the cache only
through the presence of its own key, so the serialisation fixes the same
final count and cache contents the concurrent pass reaches. -/

/-- Completion count and cache state after running one `load_existing` pass
over `paths`. -/
def runLoadExisting (env : FsEnv) : Cache → List String → Nat × Cache
  | cache, [] => (0, cache)
  | cache, p :: rest =>
      let r := generate_hq_thumbnail env cache p
      let rec' := runLoadExisting env r.2 rest
      ((if r.1.isOk then 1 else 0) + rec'.1, rec'.2)

/-! ### Supporting lemmas -/

/-- Each byte of the BLAKE3 digest is below 256. -/
theorem blake3Hash_bytes_lt (input : List Nat) : ∀ b ∈ blake3Hash input, b < 256 := by
  intro b hb
  unfold blake3Hash at hb
  simp only [List.mem_flatMap, List.mem_range] at hb
  obtain ⟨i, -, hb⟩ := hb
  simp only [List.mem_cons, List.not_mem_nil, or_false] at hb
  rcases hb with rfl | rfl | rfl | rfl <;> exact Nat.mod_lt _ (by norm_num)

/-- The BLAKE3 digest has 32 bytes. -/
theorem blake3Hash_length (input : List Nat) : (blake3Hash input).length = 32 := by
  unfold blake3Hash
  rw [List.length_flatMap]
  simp only [List.length_cons, List.length_nil, Function.comp_def]
  simp [List.map_const]

/-- Big-endian value of a byte string with one byte appended. -/
theorem beNat_append (bs : List Nat) (b : Nat) :
    beNat (bs ++ [b]) = beNat bs * 256 + b := by
  simp [beNat, List.foldl_append]

/-- Fixed-width hex of the big-endian value of a byte string agrees with the
per-byte rendering. -/
theorem hexFixed_beNat (bs : List Nat) (h : ∀ b ∈ bs, b < 256) :
    hexFixed (2 * bs.length) (beNat bs) = bs.flatMap byteHex := by
  induction bs using List.reverseRecOn with
  | nil => rfl
  | append_singleton bs b ih =>
      have hb : b < 256 := h b (by simp)
      have hbs : ∀ x ∈ bs, x < 256 := fun x hx => h x (by simp [hx])
      have hlen : 2 * (bs ++ [b]).length = 2 * bs.length + 1 + 1 := by
        simp [List.length_append]; ring
      rw [hlen, beNat_append]
      have h1 : (beNat bs * 256 + b) % 16 = b % 16 := by omega
      have h2 : (beNat bs * 256 + b) / 16 = beNat bs * 16 + b / 16 := by omega
      have h3 : (beNat bs * 16 + b / 16) % 16 = b / 16 := by omega
      have h4 : (beNat bs * 16 + b / 16) / 16 = beNat bs := by omega
      show hexFixed (2 * bs.length + 1) ((beNat bs * 256 + b) / 16) ++
          [hexDigit ((beNat bs * 256 + b) % 16)] = (bs ++ [b]).flatMap byteHex
      rw [h1, h2]
      show hexFixed (2 * bs.length) ((beNat bs * 16 + b / 16) / 16) ++
          [hexDigit ((beNat bs * 16 + b / 16) % 16)] ++ [hexDigit (b % 16)] =
          (bs ++ [b]).flatMap byteHex
      rw [h3, h4, ih hbs, List.flatMap_append]
      simp [byteHex]

/-- C8: for every path and modification time, `generate_cache_key(P, m)` equals
the lowercase hexadecimal rendering of the 256-bit BLAKE3 digest of
`P ++ ":" ++ decimal m` (the spec-side rendering reads the digest as a 256-bit
number and prints 64 lowercase hex nibbles). -/
theorem claim_C8 (file_path : String) (mtime : Nat) :
    generate_cache_key file_path mtime = cacheKeySpec file_path mtime := by
  unfold generate_cache_key cacheKeySpec bytesToHexLower
  have h := hexFixed_beNat (blake3Hash (utf8Bytes (file_path ++ ":" ++ toString mtime)))
    (blake3Hash_bytes_lt _)
  rw [blake3Hash_length] at h
  rw [← h]

/-- C9: a filesystem event whose paths all lack an extension or carry a
lowercased extension outside the image set produces no `folder-change`
emission from the watcher callback. -/
theorem claim_C9 (kind : WatchEventKind) (paths : List String)
    (h : ∀ p ∈ paths, ∀ e, extensionOf p = some e → lowerStr e ∉ IMAGE_EXTENSIONS) :
    watchHandleEvent kind paths = [] := by
  unfold watchHandleEvent
  rw [List.filterMap_eq_nil_iff]
  intro p hp
  have himg : is_image_file p = false := by
    unfold is_image_file
    cases he : extensionOf p with
    | none => rfl
    | some e =>
        have h1 := h p hp e he
        show IMAGE_EXTENSIONS.contains (lowerStr e) = false
        rw [Bool.eq_false_iff]
        intro hc
        exact h1 (List.elem_iff.mp hc)
  unfold watchHandlePath
  simp [himg]

/-- Witness for C9 at a concrete event: a `.txt` file and a file without
extension yield no emission. -/
theorem claim_C9_witness : watchHandleEvent .create ["/pics/notes.txt", "/pics/README"] = [] := by
  apply claim_C9
  intro p hp e he
  simp only [List.mem_cons, List.not_mem_nil, or_false] at hp
  rcases hp with rfl | rfl
  · have h1 : extensionOf "/pics/notes.txt" = some "txt" := by rfl
    rw [h1] at he
    injection he with h2
    subst h2
    decide
  · have h1 : extensionOf "/pics/README" = none := by rfl
    rw [h1] at he
    exact Option.noConfusion he

/-- C10: `update_priorities` neither adds nor removes work items — the
multiset of `(path, index)` pairs is preserved (only priorities and order
change). -/
theorem claim_C10 (queue : List ThumbnailRequest) (visible_indices : List Nat) :
    ((update_priorities queue visible_indices).map (fun r => (r.path, r.index))).Perm
      (queue.map (fun r => (r.path, r.index))) := by
  unfold update_priorities
  have hperm := List.perm_insertionSort reqLE (queue.map (reassignPriority visible_indices))
  have h1 := hperm.map (fun r : ThumbnailRequest => (r.path, r.index))
  have h2 : (queue.map (reassignPriority visible_indices)).map
      (fun r : ThumbnailRequest => (r.path, r.index)) =
      queue.map (fun r => (r.path, r.index)) := by
    rw [List.map_map]
    apply List.map_congr_left
    intro r _
    by_cases hv : r.index ∈ visible_indices <;> simp [reassignPriority, hv]
  rw [h2] at h1
  exact h1

/-- C2 (counterexample): at a queue state holding a visible item of index
`2 ^ 31` and a non-visible item of index 0, the `as i32` cast wraps
`2 ^ 31` to `-2 ^ 31`, so the visible priority becomes
`-((-2 ^ 31) + 1000) = 2 ^ 31 - 1000`, a large positive value (no overflow
panic occurs: both intermediates are representable), and the ascending sort
places the visible item after the non-visible one — refuting the claim over
"every queue state". -/
theorem claim_C2_counterexample :
    (update_priorities [⟨"a.jpg", 0, 2147483648⟩, ⟨"b.jpg", 1, 0⟩]
        [2147483648]).map (fun r => (r.index, r.priority)) =
      [(0, 0), (2147483648, 2147482648)] ∧
    (2147483648 : Nat) ∈ [(2147483648 : Nat)] ∧ (0 : Nat) ∉ [(2147483648 : Nat)] := by
  decide

/-- Priorities of the requests produced by `reassignPriority` when no index is
large enough to wrap: negative on visible indices, non-negative otherwise. -/
theorem mem_update_priorities_sign (queue : List ThumbnailRequest) (V : List Nat)
    (hbound : ∀ r ∈ queue, r.index ≤ 2147482648)
    (x : ThumbnailRequest) (hx : x ∈ update_priorities queue V) :
    (x.index ∈ V → x.priority < 0) ∧ (x.index ∉ V → 0 ≤ x.priority) := by
  unfold update_priorities at hx
  have hx' : x ∈ queue.map (reassignPriority V) :=
    (List.perm_insertionSort reqLE _).subset hx
  obtain ⟨y, hyq, rfl⟩ := List.mem_map.mp hx'
  have hy := hbound y hyq
  unfold reassignPriority
  by_cases hyv : V.contains y.index = true
  · rw [if_pos hyv]
    constructor
    · intro _
      show wrap32 (-(wrap32 (wrap32 (y.index : Int) + 1000))) < 0
      unfold wrap32
      omega
    · intro hn
      exact absurd (List.elem_iff.mp hyv) hn
  · rw [if_neg hyv]
    constructor
    · intro hv
      exact absurd (List.elem_iff.mpr hv) hyv
    · intro _
      show (0 : Int) ≤ wrap32 (y.index : Int)
      unfold wrap32
      omega

/-- C2 (amended): after `update_priorities(V)`, provided every queued item's
index is at most `2 ^ 31 - 1000` (so the i32 priority arithmetic does not
wrap), every queued item whose index is in `V` appears strictly before every
queued item whose index is not in `V`. -/
theorem claim_C2 (queue : List ThumbnailRequest) (V : List Nat)
    (hbound : ∀ r ∈ queue, r.index ≤ 2147482648) (i j : Nat)
    (hi : i < (update_priorities queue V).length)
    (hj : j < (update_priorities queue V).length)
    (hvi : ((update_priorities queue V).get ⟨i, hi⟩).index ∈ V)
    (hvj : ((update_priorities queue V).get ⟨j, hj⟩).index ∉ V) :
    i < j := by
  by_contra hij
  have hsorted : List.Sorted reqLE (update_priorities queue V) :=
    List.sorted_insertionSort reqLE _
  have hne : i ≠ j := by
    intro he
    subst he
    exact hvj hvi
  have hlt : (⟨j, hj⟩ : Fin (update_priorities queue V).length) < ⟨i, hi⟩ := by
    simp only [Fin.mk_lt_mk]
    omega
  have hrel := hsorted.rel_get_of_lt hlt
  have h1 := (mem_update_priorities_sign queue V hbound _ (List.get_mem _ _ _)).1 hvi
  have h2 := (mem_update_priorities_sign queue V hbound _ (List.get_mem _ _ _)).2 hvj
  unfold reqLE at hrel
  omega

/-- Witness for C2 (amended) at a concrete queue: with visible set `[1]`, the
visible item (index 1) ends up at position 0, before the non-visible item at
position 1. -/
theorem claim_C2_witness :
    (0 : Nat) < 1 ∧
      ((update_priorities [⟨"a.jpg", 0, 0⟩, ⟨"b.jpg", 1, 1⟩] [1]).get
        ⟨0, by decide⟩).index ∈ [1] := by
  refine ⟨?_, by decide⟩
  exact claim_C2 [⟨"a.jpg", 0, 0⟩, ⟨"b.jpg", 1, 1⟩] [1] (by decide) 0 1 (by decide)
    (by decide) (by decide) (by decide)

/-- C4 (evaluation at the failing input): with both items visible, the sorted
queue lists index 1 before index 0 — within the visible set the order is
descending by index, not ascending as the spec states, because
`priority = -(index + 1000)` decreases as the index grows while the sort is
ascending. -/
theorem claim_C4 :
    (update_priorities [⟨"a.jpg", 0, 0⟩, ⟨"b.jpg", 1, 1⟩] [0, 1]).map
      (fun r => r.index) = [1, 0] := by
  decide

/-- Tail of a monotone trace is monotone. -/
theorem monoTrace_tail (a : Bool) (l : List Bool) (h : monoTrace (a :: l) = true) :
    monoTrace l = true := by
  cases l with
  | nil => rfl
  | cons b t =>
      unfold monoTrace at h
      exact (Bool.and_eq_true_iff.mp h).2

/-- In a monotone trace starting at `true`, the last sample is `true`. -/
theorem monoTrace_last_of_head (l : List Bool) (f : Bool)
    (h : monoTrace (true :: (l ++ [f])) = true) : f = true := by
  induction l with
  | nil =>
      unfold monoTrace at h
      simpa using (Bool.and_eq_true_iff.mp h).1
  | cons b t ih =>
      unfold monoTrace at h
      obtain ⟨h1, h2⟩ := Bool.and_eq_true_iff.mp h
      have hb : b = true := by simpa using h1
      subst hb
      exact ih h2

/-- In a monotone trace, a `true` sample forces the final sample `true`. -/
theorem monoTrace_final (checks : List Bool) (f : Bool)
    (h : monoTrace (checks ++ [f]) = true)
    (hany : checks.any (fun b => b) = true) : f = true := by
  induction checks with
  | nil => simp at hany
  | cons a t ih =>
      rw [List.any_cons] at hany
      rcases Bool.or_eq_true_iff.mp hany with ha | ht
      · subst ha
        exact monoTrace_last_of_head t f h
      · exact ih (monoTrace_tail _ _ h) ht

/-- C6: when one `start_hq_thumbnail_worker` pass terminates, a set
cancellation flag yields a `thumbnail-hq-cancelled` emission and no
`thumbnail-hq-all-completed`; an unset flag yields `thumbnail-hq-all-completed`
and no `thumbnail-hq-cancelled`.  Within one pass the flag samples are
monotone, since `cancel_hq_thumbnail_generation` only stores `true`. -/
theorem claim_C6 (checks : List Bool) (finalFlag : Bool)
    (hmono : monoTrace (checks ++ [finalFlag]) = true) :
    (finalFlag = true →
      "thumbnail-hq-cancelled" ∈ hqWorkerEmissions checks finalFlag ∧
      "thumbnail-hq-all-completed" ∉ hqWorkerEmissions checks finalFlag) ∧
    (finalFlag = false →
      "thumbnail-hq-all-completed" ∈ hqWorkerEmissions checks finalFlag ∧
      "thumbnail-hq-cancelled" ∉ hqWorkerEmissions checks finalFlag) := by
  constructor
  · intro hf
    subst hf
    unfold hqWorkerEmissions
    constructor
    · exact List.mem_append_right _ (by simp)
    · intro hmem
      rcases List.mem_append.mp hmem with h1 | h2
      · by_cases hany : checks.any (fun b => b) = true
        · rw [if_pos hany] at h1
          simp at h1
        · rw [if_neg hany] at h1
          simp at h1
      · simp at h2
  · intro hf
    subst hf
    have hany : checks.any (fun b => b) = false := by
      by_contra hc
      have := monoTrace_final checks false hmono (by simpa using hc)
      simp at this
    unfold hqWorkerEmissions
    rw [hany]
    constructor
    · simp
    · simp

/-- Witness for C6: a pass whose flag trace flips to `true` before the final
check emits `thumbnail-hq-cancelled` and no `thumbnail-hq-all-completed`. -/
theorem claim_C6_witness :
    "thumbnail-hq-cancelled" ∈ hqWorkerEmissions [false, true] true ∧
      "thumbnail-hq-all-completed" ∉ hqWorkerEmissions [false, true] true :=
  (claim_C6 [false, true] true (by decide)).1 rfl

/-! ### Concrete environments for counterexamples and witnesses -/

/-- Cache with no entries. -/
def emptyCache : Cache := fun _ => none

/-- Environment holding one large JPEG, `/photos/big.jpg`, of 4000 × 6000
pixels (a common 24-megapixel photo), no EXIF data, all cache writes
succeeding. -/
def envBigJpeg : FsEnv where
  mtime := fun _ => some 1700000000
  exifMeta := fun _ => none
  exifThumb := fun _ => none
  decodeMem := fun _ => none
  jpegDims := fun p => if p = "/photos/big.jpg" then some (4000, 6000) else none
  jpegPixels := fun _ => []
  svgThumb := fun _ => none
  rawThumb := fun _ => none
  genericThumb := fun _ => none
  webpEncode := fun _ _ _ => []
  writeOk := fun _ => true

/-- C1 (evaluation at the failing input): `generate_hq_thumbnail` on a fresh
4000 × 6000 JPEG returns `source = dct_scaling` with dimensions 500 × 750 —
the external JPEG decoder only scales by 1/1, 1/2, 1/4 or 1/8, so the 320 px
cap claimed by the spec (and by the source comments on
`generate_dct_thumbnail` and `generate_hq_thumbnail`) is exceeded whenever a
side is larger than 2560 px. -/
theorem claim_C1 :
    ((generate_hq_thumbnail envBigJpeg emptyCache "/photos/big.jpg").1.map
        (fun r => (r.width, r.height, r.source)) =
      Except.ok (500, 750, ThumbnailSource.dctScaling)) ∧
    ¬ max 500 750 ≤ 320 := by
  constructor
  · rfl
  · decide

/-- Environment holding one PNG, `/photos/pic.png`, that decodes fine but
whose cache write fails. -/
def envPngNoWrite : FsEnv where
  mtime := fun _ => some 100
  exifMeta := fun _ => none
  exifThumb := fun _ => none
  decodeMem := fun _ => none
  jpegDims := fun _ => none
  jpegPixels := fun _ => []
  svgThumb := fun _ => none
  rawThumb := fun _ => none
  genericThumb := fun p => if p = "/photos/pic.png" then some ([1, 2, 3], 320, 200) else none
  webpEncode := fun _ _ _ => [9, 9]
  writeOk := fun _ => false

/-- C3 (counterexample): on a non-JPEG input with no cache entry whose decode
succeeds and whose cache write fails, `generate_thumbnail` returns the write
error instead of the claimed `ThumbnailResult` with `source = dct_scaling` —
the source propagates the `fs::write` failure with `?`
(thumbnail.rs:673-674). -/
theorem claim_C3_counterexample :
    (generate_thumbnail envPngNoWrite emptyCache "/photos/pic.png").1 =
        Except.error "Failed to write cache" ∧
      (generate_thumbnail envPngNoWrite emptyCache "/photos/pic.png").1.isOk = false := by
  constructor
  · rfl
  · rfl

/-- C3 (amended): if `produce_fast` reaches the decode-and-encode step (no
EXIF-embedded thumbnail, no cache hit) and the cache write fails, the call
returns an error ("Failed to write cache") and leaves the cache unchanged;
the write is fatal, not best-effort. -/
theorem claim_C3_amended (env : FsEnv) (cache : Cache) (p : String) (m : Nat)
    (t : List Nat × Nat × Nat)
    (hnx : is_jpeg_file p = false ∨ env.exifThumb p = none)
    (hm : env.mtime p = some m)
    (hc : cache (generate_cache_key p m) = none)
    (hdec : decodeDispatch env p = .ok t)
    (hw : env.writeOk (generate_cache_key p m) = false) :
    generate_thumbnail env cache p = (.error "Failed to write cache", cache) := by
  obtain ⟨rgb, w, h⟩ := t
  have hscrut : (if is_jpeg_file p then env.exifThumb p else none) = none := by
    rcases hnx with h1 | h1
    · rw [h1]; rfl
    · by_cases hj : is_jpeg_file p = true
      · rw [hj]; simpa using h1
      · rw [Bool.eq_false_iff.mpr (fun hc2 => hj hc2)]; rfl
  unfold generate_thumbnail
  rw [hscrut, hm]
  simp only [hc, hdec, hw]
  rfl

/-- Witness for C3 (amended) at the concrete failing environment. -/
theorem claim_C3_witness :
    generate_thumbnail envPngNoWrite emptyCache "/photos/pic.png" =
      (.error "Failed to write cache", emptyCache) :=
  claim_C3_amended envPngNoWrite emptyCache "/photos/pic.png" 100 ([1, 2, 3], 320, 200)
    (Or.inl (by rfl)) rfl rfl rfl rfl

/-- C5: for a `jpg`/`jpeg` file whose EXIF-embedded thumbnail extraction (and
the dimension decode of the embedded bytes) succeeds, `produce_fast` returns
`source = exif_embedded` carrying the embedded JPEG bytes, for every cache
state — the cache is never consulted and is returned unchanged, even when an
entry for the path exists. -/
theorem claim_C5 (env : FsEnv) (cache : Cache) (p : String) (bs : List Nat) (w h : Nat)
    (hjpeg : is_jpeg_file p = true)
    (hthumb : env.exifThumb p = some bs)
    (hdec : env.decodeMem bs = some (w, h)) :
    generate_thumbnail env cache p =
      (.ok { path := p, thumbnail_base64 := encode_to_base64 bs, width := w, height := h,
             source := .exifEmbedded, exif_metadata := env.exifMeta p }, cache) := by
  unfold generate_thumbnail
  rw [hjpeg]
  simp only [if_true]
  rw [hthumb]
  dsimp only
  rw [hdec]

/-- Environment holding one JPEG with an embedded EXIF thumbnail (the bytes
begin with the JPEG SOI marker `FF D8`) that decodes to 160 × 120. -/
def envExifJpeg : FsEnv where
  mtime := fun _ => some 42
  exifMeta := fun _ => none
  exifThumb := fun p => if p = "/photos/cam.jpg" then some [255, 216, 255, 224] else none
  decodeMem := fun bs => if bs = [255, 216, 255, 224] then some (160, 120) else none
  jpegDims := fun _ => some (4000, 3000)
  jpegPixels := fun _ => []
  svgThumb := fun _ => none
  rawThumb := fun _ => none
  genericThumb := fun _ => none
  webpEncode := fun _ _ _ => []
  writeOk := fun _ => true

/-- Witness for C5 with a cache that holds an entry under every key: the EXIF
shortcut still wins and the cache is untouched. -/
theorem claim_C5_witness :
    generate_thumbnail envExifJpeg (fun _ => some [0]) "/photos/cam.jpg" =
      (.ok { path := "/photos/cam.jpg",
             thumbnail_base64 := encode_to_base64 [255, 216, 255, 224],
             width := 160, height := 120, source := .exifEmbedded,
             exif_metadata := none }, fun _ => some [0]) :=
  claim_C5 envExifJpeg (fun _ => some [0]) "/photos/cam.jpg" [255, 216, 255, 224] 160 120
    (by rfl) rfl rfl

/-! ### HQ idempotence development (claim C7) -/

/-- Cache key of a path under an environment (`none` while `get_file_mtime`
fails). -/
def keyOf (env : FsEnv) (p : String) : Option String :=
  (env.mtime p).map (generate_cache_key p)

/-- WebP bytes `generate_hq_thumbnail` would write for a path (meaningful when
the JPEG decode succeeds). -/
def hqBytes (env : FsEnv) (p : String) : List Nat :=
  match env.jpegDims p with
  | some (w0, h0) =>
      let d := jpegScaledDims w0 h0 320 320
      env.webpEncode (env.jpegPixels p) d.1 d.2
  | none => []

/-- Success of one `generate_hq_thumbnail` call as a function of the cache. -/
def hqSucceeds (env : FsEnv) (c : Cache) (p : String) : Bool :=
  match keyOf env p with
  | none => false
  | some k => (c k).isSome || ((env.jpegDims p).isSome && env.writeOk k)

/-- Cache contents after one `generate_hq_thumbnail` call. -/
def hqCacheAfter (env : FsEnv) (c : Cache) (p : String) : Cache :=
  match keyOf env p with
  | none => c
  | some k =>
      if (c k).isSome then c
      else if (env.jpegDims p).isSome && env.writeOk k then
        cacheInsert k (hqBytes env p) c
      else c

/-- The success flag of `generate_hq_thumbnail` matches `hqSucceeds`. -/
theorem hq_isOk_eq (env : FsEnv) (c : Cache) (p : String) :
    (generate_hq_thumbnail env c p).1.isOk = hqSucceeds env c p := by
  unfold generate_hq_thumbnail hqSucceeds keyOf
  cases hm : env.mtime p with
  | none => rfl
  | some m =>
      dsimp only [Option.map_some']
      cases hc : c (generate_cache_key p m) with
      | some v => rfl
      | none =>
          unfold generate_dct_thumbnail
          cases hd : env.jpegDims p with
          | none => rfl
          | some d =>
              obtain ⟨w, h⟩ := d
              cases hw : env.writeOk (generate_cache_key p m) with
              | true => simp [hw, Except.isOk, Except.toBool]
              | false => simp [hw, Except.isOk, Except.toBool]

/-- The cache left by `generate_hq_thumbnail` matches `hqCacheAfter`. -/
theorem hq_snd_eq (env : FsEnv) (c : Cache) (p : String) :
    (generate_hq_thumbnail env c p).2 = hqCacheAfter env c p := by
  unfold generate_hq_thumbnail hqCacheAfter keyOf
  cases hm : env.mtime p with
  | none => rfl
  | some m =>
      dsimp only [Option.map_some']
      cases hc : c (generate_cache_key p m) with
      | some v => simp [hc]
      | none =>
          unfold generate_dct_thumbnail hqBytes
          cases hd : env.jpegDims p with
          | none => simp [hc]
          | some d =>
              obtain ⟨w, h⟩ := d
              cases hw : env.writeOk (generate_cache_key p m) with
              | true => simp [hc, hw]
              | false => simp [hc, hw]

/-- One-step unfolding of `runLoadExisting` through the characterization. -/
theorem runLoadExisting_cons (env : FsEnv) (c : Cache) (p : String) (rest : List String) :
    runLoadExisting env c (p :: rest) =
      ((if hqSucceeds env c p then 1 else 0) +
        (runLoadExisting env (hqCacheAfter env c p) rest).1,
       (runLoadExisting env (hqCacheAfter env c p) rest).2) := by
  show ((if (generate_hq_thumbnail env c p).1.isOk then 1 else 0) +
      (runLoadExisting env (generate_hq_thumbnail env c p).2 rest).1,
    (runLoadExisting env (generate_hq_thumbnail env c p).2 rest).2) = _
  rw [hq_isOk_eq, hq_snd_eq]

/-- Cache extension order: every stored entry is preserved. -/
def cacheLE (c c' : Cache) : Prop := ∀ k v, c k = some v → c' k = some v

theorem cacheLE_refl (c : Cache) : cacheLE c c := fun _ _ h => h

theorem cacheLE_trans {a b c : Cache} (h1 : cacheLE a b) (h2 : cacheLE b c) :
    cacheLE a c := fun k v h => h2 k v (h1 k v h)

theorem cacheLE_isSome {c c' : Cache} (h : cacheLE c c') (k : String)
    (hk : (c k).isSome = true) : (c' k).isSome = true := by
  cases hv : c k with
  | none => rw [hv] at hk; simp at hk
  | some v => rw [h k v hv]; rfl

/-- One HQ step only adds cache entries. -/
theorem hq_step_mono (env : FsEnv) (c : Cache) (p : String) :
    cacheLE c (hqCacheAfter env c p) := by
  unfold hqCacheAfter
  cases hk : keyOf env p with
  | none => exact cacheLE_refl c
  | some k =>
      dsimp only
      by_cases h1 : (c k).isSome = true
      · rw [if_pos h1]; exact cacheLE_refl c
      · rw [if_neg h1]
        by_cases h2 : ((env.jpegDims p).isSome && env.writeOk k) = true
        · rw [if_pos h2]
          intro k' v' hv'
          unfold cacheInsert
          by_cases hk' : k' = k
          · subst hk'
            rw [hv'] at h1
            simp at h1
          · rw [if_neg hk']
            exact hv'
        · rw [if_neg h2]; exact cacheLE_refl c

/-- A whole pass only adds cache entries. -/
theorem run_mono (env : FsEnv) (ps : List String) :
    ∀ c : Cache, cacheLE c (runLoadExisting env c ps).2 := by
  induction ps with
  | nil => intro c; exact cacheLE_refl c
  | cons p rest ih =>
      intro c
      rw [runLoadExisting_cons]
      exact cacheLE_trans (hq_step_mono env c p) (ih _)

/-- A path of the pass whose key, decode and write all cooperate ends with its
key present in the final cache. -/
theorem run_written (env : FsEnv) (ps : List String) :
    ∀ (c : Cache) (p : String), p ∈ ps → ∀ k, keyOf env p = some k →
    (env.jpegDims p).isSome = true → env.writeOk k = true →
    (((runLoadExisting env c ps).2) k).isSome = true := by
  induction ps with
  | nil => intro c p hp; simp at hp
  | cons q rest ih =>
      intro c p hp k hk hd hw
      rw [runLoadExisting_cons]
      rcases List.mem_cons.mp hp with rfl | hp2
      · have hpres : ((hqCacheAfter env c p) k).isSome = true := by
          unfold hqCacheAfter
          rw [hk]
          dsimp only
          by_cases h1 : (c k).isSome = true
          · rw [if_pos h1]; exact h1
          · rw [if_neg h1]
            rw [if_pos (by rw [hd, hw]; rfl)]
            unfold cacheInsert
            rw [if_pos rfl]
            rfl
        exact cacheLE_isSome (run_mono env rest _) k hpres
      · exact ih _ p hp2 k hk hd hw

/-- Provenance of a final cache entry: it was present at the start, or some
pass member with that key wrote it (so that key's write succeeded and that
member's decode succeeded, and the bytes are that member's bytes). -/
theorem run_provenance (env : FsEnv) (ps : List String) :
    ∀ (c : Cache) (k : String) (v : List Nat),
    (runLoadExisting env c ps).2 k = some v →
    c k = some v ∨ (env.writeOk k = true ∧
      ∃ q ∈ ps, keyOf env q = some k ∧ (env.jpegDims q).isSome = true ∧ v = hqBytes env q) := by
  induction ps with
  | nil => intro c k v h; exact Or.inl h
  | cons q rest ih =>
      intro c k v h
      rw [runLoadExisting_cons] at h
      rcases ih _ k v h with h1 | h1
      · revert h1
        unfold hqCacheAfter
        cases hkq : keyOf env q with
        | none => exact fun h1 => Or.inl h1
        | some k' =>
            dsimp only
            by_cases hc : (c k').isSome = true
            · rw [if_pos hc]; exact fun h1 => Or.inl h1
            · rw [if_neg hc]
              by_cases h2 : ((env.jpegDims q).isSome && env.writeOk k') = true
              · rw [if_pos h2]
                unfold cacheInsert
                by_cases hk' : k = k'
                · subst hk'
                  rw [if_pos rfl]
                  intro h1
                  injection h1 with h1
                  obtain ⟨hd, hw⟩ := Bool.and_eq_true_iff.mp h2
                  exact Or.inr ⟨hw, q, List.mem_cons_self _ _, hkq, hd, h1.symm⟩
                · rw [if_neg hk']
                  exact fun h1 => Or.inl h1
              · rw [if_neg h2]; exact fun h1 => Or.inl h1
      · obtain ⟨hw, q', hq', hrest⟩ := h1
        exact Or.inr ⟨hw, q', List.mem_cons_of_mem _ hq', hrest⟩

/-- A cache that already holds every key a path would write is a fixpoint of
that path's step. -/
theorem hq_step_fix (env : FsEnv) (c1 : Cache) (p : String)
    (hfix : ∀ k, keyOf env p = some k → (env.jpegDims p).isSome = true →
      env.writeOk k = true → (c1 k).isSome = true) :
    hqCacheAfter env c1 p = c1 := by
  unfold hqCacheAfter
  cases hk : keyOf env p with
  | none => rfl
  | some k =>
      dsimp only
      by_cases h1 : (c1 k).isSome = true
      · rw [if_pos h1]
      · rw [if_neg h1]
        by_cases h2 : ((env.jpegDims p).isSome && env.writeOk k) = true
        · obtain ⟨hd, hw⟩ := Bool.and_eq_true_iff.mp h2
          exact absurd (hfix k hk hd hw) h1
        · rw [if_neg h2]

/-- Rerunning a suffix from a cache that is a fixpoint of every member's step
and decides every member's success like the evolving caches do yields the
same count, and stays at that cache. -/
theorem run_from_fix (env : FsEnv) (c0 c1 : Cache) :
    ∀ (S : List String) (c : Cache), cacheLE c0 c → cacheLE c c1 →
    (∀ p ∈ S,
      (∀ c', cacheLE c0 c' → cacheLE c' c1 →
        hqSucceeds env c' p = hqSucceeds env c1 p) ∧
      (∀ c', cacheLE c0 c' → cacheLE c' c1 →
        cacheLE (hqCacheAfter env c' p) c1) ∧
      hqCacheAfter env c1 p = c1) →
    (runLoadExisting env c S).1 = (runLoadExisting env c1 S).1 ∧
      (runLoadExisting env c1 S).2 = c1 := by
  intro S
  induction S with
  | nil => intro c _ _ _; exact ⟨rfl, rfl⟩
  | cons p rest ih =>
      intro c hc0 hc1 hgood
      obtain ⟨hsucc, hsub, hfix⟩ := hgood p (List.mem_cons_self _ _)
      have hgood' : ∀ q ∈ rest,
          (∀ c', cacheLE c0 c' → cacheLE c' c1 →
            hqSucceeds env c' q = hqSucceeds env c1 q) ∧
          (∀ c', cacheLE c0 c' → cacheLE c' c1 →
            cacheLE (hqCacheAfter env c' q) c1) ∧
          hqCacheAfter env c1 q = c1 :=
        fun q hq => hgood q (List.mem_cons_of_mem _ hq)
      rw [runLoadExisting_cons, runLoadExisting_cons, hfix]
      have hnext0 : cacheLE c0 (hqCacheAfter env c p) :=
        cacheLE_trans hc0 (hq_step_mono env c p)
      have hnext1 : cacheLE (hqCacheAfter env c p) c1 := hsub c hc0 hc1
      obtain ⟨ihn, ihc⟩ := ih (hqCacheAfter env c p) hnext0 hnext1 hgood'
      refine ⟨?_, ihc⟩
      dsimp only
      rw [hsucc c hc0 hc1, ihn]

/-- C7: running `load_existing` twice over the same path list with the
underlying files unchanged (one fixed environment) yields the same final
completion count, and the second run leaves the cache exactly as the first
run left it; cache keys are assumed collision-free on the list (content
addressing). -/
theorem claim_C7 (env : FsEnv) (c0 : Cache) (S : List String)
    (hinj : ∀ p ∈ S, ∀ q ∈ S, ∀ k, keyOf env p = some k → keyOf env q = some k → p = q) :
    (runLoadExisting env (runLoadExisting env c0 S).2 S).1 = (runLoadExisting env c0 S).1 ∧
    (runLoadExisting env (runLoadExisting env c0 S).2 S).2 = (runLoadExisting env c0 S).2 := by
  have hc0c1 : cacheLE c0 (runLoadExisting env c0 S).2 := run_mono env S c0
  have hgood : ∀ p ∈ S,
      (∀ c', cacheLE c0 c' → cacheLE c' (runLoadExisting env c0 S).2 →
        hqSucceeds env c' p = hqSucceeds env (runLoadExisting env c0 S).2 p) ∧
      (∀ c', cacheLE c0 c' → cacheLE c' (runLoadExisting env c0 S).2 →
        cacheLE (hqCacheAfter env c' p) (runLoadExisting env c0 S).2) ∧
      hqCacheAfter env (runLoadExisting env c0 S).2 p = (runLoadExisting env c0 S).2 := by
    intro p hp
    refine ⟨?_, ?_, ?_⟩
    · intro c' h0 h1
      unfold hqSucceeds
      cases hk : keyOf env p with
      | none => rfl
      | some k =>
          dsimp only
          cases hck : (c' k).isSome with
          | true =>
              rw [cacheLE_isSome h1 k hck]
          | false =>
              cases hc1k : ((runLoadExisting env c0 S).2 k).isSome with
              | false => rfl
              | true =>
                  obtain ⟨v, hv⟩ := Option.isSome_iff_exists.mp hc1k
                  rcases run_provenance env S c0 k v hv with h0k |
                    ⟨hw, q, hqS, hkq, hdq, hvq⟩
                  · rw [h0 k v h0k] at hck
                    simp at hck
                  · have hpq : p = q := hinj p hp q hqS k hk hkq
                    subst hpq
                    rw [hdq, hw]
                    rfl
    · intro c' h0 h1
      unfold hqCacheAfter
      cases hk : keyOf env p with
      | none => exact h1
      | some k =>
          dsimp only
          by_cases hck : (c' k).isSome = true
          · rw [if_pos hck]; exact h1
          · rw [if_neg hck]
            by_cases h2 : ((env.jpegDims p).isSome && env.writeOk k) = true
            · rw [if_pos h2]
              obtain ⟨hd, hw⟩ := Bool.and_eq_true_iff.mp h2
              have hc1k : (((runLoadExisting env c0 S).2) k).isSome = true :=
                run_written env S c0 p hp k hk hd hw
              obtain ⟨v, hv⟩ := Option.isSome_iff_exists.mp hc1k
              have hveq : v = hqBytes env p := by
                rcases run_provenance env S c0 k v hv with h0k |
                  ⟨_, q, hqS, hkq, _, hvq⟩
                · exact absurd (by rw [h0 k v h0k]; rfl) hck
                · have hpq : p = q := hinj p hp q hqS k hk hkq
                  rw [hvq, ← hpq]
              intro k' v' hv'
              unfold cacheInsert at hv'
              by_cases hk' : k' = k
              · subst hk'
                rw [if_pos rfl] at hv'
                injection hv' with hv'
                rw [hv, hveq, hv']
              · rw [if_neg hk'] at hv'
                exact h1 k' v' hv'
            · rw [if_neg h2]; exact h1
    · exact hq_step_fix env _ p (fun k hk hd hw => run_written env S c0 p hp k hk hd hw)
  obtain ⟨h1, h2⟩ := run_from_fix env c0 (runLoadExisting env c0 S).2 S c0
    (cacheLE_refl c0) hc0c1 hgood
  exact ⟨h1.symm, h2⟩

/-- Witness for C7 on a singleton list over the large-JPEG environment: the
key-injectivity hypothesis is immediate for one path. -/
theorem claim_C7_witness :
    (runLoadExisting envBigJpeg (runLoadExisting envBigJpeg emptyCache ["/photos/big.jpg"]).2
        ["/photos/big.jpg"]).1 =
      (runLoadExisting envBigJpeg emptyCache ["/photos/big.jpg"]).1 ∧
    (runLoadExisting envBigJpeg (runLoadExisting envBigJpeg emptyCache ["/photos/big.jpg"]).2
        ["/photos/big.jpg"]).2 =
      (runLoadExisting envBigJpeg emptyCache ["/photos/big.jpg"]).2 := by
  apply claim_C7
  intro p hp q hq k _ _
  simp only [List.mem_singleton] at hp hq
  rw [hp, hq]

-- Sanity check of the BLAKE3 embedding against the official empty-input test
-- vector.
set_option maxRecDepth 8192 in
example :
    bytesToHexLower (blake3Hash []) =
      "af1349b9f5f9a1a6a0404dea36dcc9499bcb25c9adc112b7cc9a93cae41f3262" := by
  decide
